import Mathlib

/-!
Shallow embedding of the attachment upload pipeline from
`apps/api/src/lib/attachments.ts`: filename sanitization, posix path
joining, the upload-token store with expiry, `createUpload`,
`receiveUpload` (streaming ingestion with SHA-256 and size limits) and
`openAttachmentPath`.  Machine behaviour is modelled with `Nat`/`Int`
arithmetic and explicit state passing; JavaScript numbers that can be
non-finite are modelled by `JsNum`.
-/

namespace Attachments

/-- Model of a JavaScript number where only integral finite values and the
non-finite values matter: `NaN`, `Infinity`, `-Infinity`. -/
inductive JsNum where
  | finite (n : Int)
  | nan
  | posInf
  | negInf
  deriving DecidableEq, Repr

/-- Embedding of `Number.isFinite`. -/
def JsNum.isFinite : JsNum → Bool
  | .finite _ => true
  | _ => false

/-- JavaScript `x < n` for an integer right-hand side (`NaN` compares false). -/
def JsNum.ltInt : JsNum → Int → Bool
  | .finite m, n => m < n
  | .nan, _ => false
  | .posInf, _ => false
  | .negInf, _ => true

/-- JavaScript `x > n` for an integer right-hand side (`NaN` compares false). -/
def JsNum.gtInt : JsNum → Int → Bool
  | .finite m, n => n < m
  | .nan, _ => false
  | .posInf, _ => true
  | .negInf, _ => false

/-- JavaScript `x > n` against a natural-number bound. -/
def JsNum.gtNat (x : JsNum) (n : Nat) : Bool := x.gtInt (Int.ofNat n)

/-! ## Filename sanitization (`sanitizeFilename`, attachments.ts lines 24-28) -/

/-- Whitespace characters matched by the JavaScript `\s` class (the subset
relevant to this code base). -/
def isWsChar (c : Char) : Bool :=
  c == ' ' || c == '\t' || c == '\n' || c == '\r' ||
  c == '\x0b' || c == '\x0c' || c == '\u00A0'

/-- Characters kept by the `[^a-zA-Z0-9._-]` strip in `sanitizeFilename`. -/
def isAllowedChar (c : Char) : Bool :=
  (('a' ≤ c && c ≤ 'z') || ('A' ≤ c && c ≤ 'Z') || ('0' ≤ c && c ≤ '9')) ||
  c == '.' || c == '_' || c == '-'

/-- Embedding of JavaScript `String.prototype.trim` on a character list. -/
def trimWs (l : List Char) : List Char :=
  ((l.dropWhile isWsChar).reverse.dropWhile isWsChar).reverse

/-- Embedding of `.replace(/\s+/g, '-')`: each maximal whitespace run
becomes a single hyphen.  The boolean records whether the previous
character was whitespace. -/
def collapseWsAux : Bool → List Char → List Char
  | _, [] => []
  | prevWs, c :: rest =>
    if isWsChar c then
      if prevWs then collapseWsAux true rest
      else '-' :: collapseWsAux true rest
    else c :: collapseWsAux false rest

/-- Replace every maximal whitespace run by one hyphen. -/
def collapseWs (l : List Char) : List Char := collapseWsAux false l

/-- Embedding of `sanitizeFilename` (attachments.ts lines 24-28):
trim, collapse whitespace runs to hyphens, strip characters outside
`[a-zA-Z0-9._-]`, and fall back to `"attachment"` when empty. -/
def sanitizeFilename (filename : String) : String :=
  let trimmed := collapseWs (trimWs filename.toList)
  let safe := trimmed.filter isAllowedChar
  if safe = [] then "attachment" else String.mk safe

/-! ## Posix path splitting, joining and normalization -/

/-- Split a character list at `'/'` separators; `acc` holds the current
segment reversed.  Mirrors JavaScript `String.prototype.split('/')`. -/
def splitSeg : List Char → List Char → List String
  | [], acc => [String.mk acc.reverse]
  | c :: rest, acc =>
    if c = '/' then String.mk acc.reverse :: splitSeg rest []
    else splitSeg rest (c :: acc)

/-- Embedding of `s.split('/')`. -/
def splitSlash (s : String) : List String := splitSeg s.toList []

/-- Embedding of `Array.prototype.join('/')`. -/
def joinSlash : List String → String
  | [] => ""
  | [s] => s
  | s :: rest => s ++ "/" ++ joinSlash rest

/-- Does the string start with a `'/'` character? -/
def startsWithSlash (s : String) : Bool :=
  match s.toList with
  | c :: _ => c == '/'
  | [] => false

/-- Segment-normalization stack machine of `path.posix.normalize`: `"."`
and empty segments are dropped, `".."` pops the previous segment (kept for
relative paths with nothing to pop, dropped for absolute ones).  The stack
holds the most recent segment first; the result is in order. -/
def normLoop (abs : Bool) : List String → List String → List String
  | [], stack => stack.reverse
  | s :: rest, stack =>
    if s = "" ∨ s = "." then normLoop abs rest stack
    else if s = ".." then
      match stack with
      | [] => if abs then normLoop abs rest [] else normLoop abs rest [".."]
      | top :: stack' =>
        if top = ".." then normLoop abs rest (s :: top :: stack')
        else normLoop abs rest stack'
    else normLoop abs rest (s :: stack)

/-- Embedding of `path.posix.join`: drop empty parts, concatenate with
`'/'`, then normalize the resulting segments. -/
def posixJoin (parts : List String) : String :=
  let ps := parts.filter (fun p => p ≠ "")
  let segs := (ps.map splitSlash).flatten
  let abs :=
    match ps with
    | [] => false
    | p :: _ => startsWithSlash p
  let body := joinSlash (normLoop abs segs [])
  if abs then "/" ++ body
  else if body = "" then "." else body

/-- Embedding of `ensurePosixKey` (attachments.ts lines 30-32) on a posix
host, where `path.sep` and `path.posix.sep` are both `'/'`:
`key.split(path.sep).join(path.posix.sep)`. -/
def ensurePosixKey (key : String) : String := joinSlash (splitSlash key)

/-- Embedding of `AttachmentService.buildStoragePath` (attachments.ts
lines 59-63): normalize the key, drop empty and `".."` segments, and join
under the base directory. -/
def buildStoragePath (baseDir : String) (storageKey : String) : String :=
  let normalized := ensurePosixKey storageKey
  let safeKey := joinSlash ((splitSlash normalized).filter
    (fun seg => !(seg == "") && !(seg == "..")))
  posixJoin [baseDir, safeKey]

/-! ## SHA-256 (`createHash('sha256')`), FIPS 180-4, on byte lists -/

/-- Addition modulo `2^32`. -/
def add32 (a b : Nat) : Nat := (a + b) % 4294967296

/-- Right rotation of a 32-bit word. -/
def rotr32 (n x : Nat) : Nat := ((x >>> n) ||| (x <<< (32 - n))) % 4294967296

/-- SHA-256 `Ch` function. -/
def shaCh (x y z : Nat) : Nat := (x &&& y) ^^^ ((x ^^^ 4294967295) &&& z)

/-- SHA-256 `Maj` function. -/
def shaMaj (x y z : Nat) : Nat := (x &&& y) ^^^ (x &&& z) ^^^ (y &&& z)

/-- SHA-256 big sigma 0. -/
def bigSigma0 (x : Nat) : Nat := rotr32 2 x ^^^ rotr32 13 x ^^^ rotr32 22 x

/-- SHA-256 big sigma 1. -/
def bigSigma1 (x : Nat) : Nat := rotr32 6 x ^^^ rotr32 11 x ^^^ rotr32 25 x

/-- SHA-256 small sigma 0. -/
def smallSigma0 (x : Nat) : Nat := rotr32 7 x ^^^ rotr32 18 x ^^^ (x >>> 3)

/-- SHA-256 small sigma 1. -/
def smallSigma1 (x : Nat) : Nat := rotr32 17 x ^^^ rotr32 19 x ^^^ (x >>> 10)

/-- SHA-256 round constants (FIPS 180-4 section 4.2.2), in decimal. -/
def sha256K : List Nat :=
  [1116352408, 1899447441, 3049323471, 3921009573, 961987163,
   1508970993, 2453635748, 2870763221, 3624381080, 310598401,
   607225278, 1426881987, 1925078388, 2162078206, 2614888103,
   3248222580, 3835390401, 4022224774, 264347078, 604807628,
   770255983, 1249150122, 1555081692, 1996064986, 2554220882,
   2821834349, 2952996808, 3210313671, 3336571891, 3584528711,
   113926993, 338241895, 666307205, 773529912, 1294757372,
   1396182291, 1695183700, 1986661051, 2177026350, 2456956037,
   2730485921, 2820302411, 3259730800, 3345764771, 3516065817,
   3600352804, 4094571909, 275423344, 430227734, 506948616,
   659060556, 883997877, 958139571, 1322822218, 1537002063,
   1747873779, 1955562222, 2024104815, 2227730452, 2361852424,
   2428436474, 2756734187, 3204031479, 3329325298]

/-- Working state of the compression function. -/
structure Hash8 where
  a : Nat
  b : Nat
  c : Nat
  d : Nat
  e : Nat
  f : Nat
  g : Nat
  h : Nat
  deriving DecidableEq, Repr

/-- SHA-256 initial hash value (FIPS 180-4 section 5.3.3), in decimal. -/
def sha256H0 : Hash8 :=
  ⟨1779033703, 3144134277, 1013904242, 2773480762,
   1359893119, 2600822924, 528734635, 1541459225⟩

/-- Most-significant-first byte decomposition of a number (`k` bytes). -/
def toBytesBE : Nat → Nat → List Nat
  | 0, _ => []
  | k + 1, n => toBytesBE k (n / 256) ++ [n % 256]

/-- Group bytes into big-endian 32-bit words. -/
def bytesToWords : List Nat → List Nat
  | b0 :: b1 :: b2 :: b3 :: rest =>
    (b0 * 16777216 + b1 * 65536 + b2 * 256 + b3) :: bytesToWords rest
  | _ => []

/-- Extend the first sixteen schedule words by `fuel` more words; `acc`
holds the words produced so far, most recent first. -/
def schedRest : Nat → List Nat → List Nat
  | 0, acc => acc.reverse
  | k + 1, acc =>
    let w2 := acc.getD 1 0
    let w7 := acc.getD 6 0
    let w15 := acc.getD 14 0
    let w16 := acc.getD 15 0
    schedRest k ((add32 (add32 w16 (smallSigma0 w15)) (add32 w7 (smallSigma1 w2))) :: acc)

/-- One round of the SHA-256 compression function. -/
def shaRound (s : Hash8) (k w : Nat) : Hash8 :=
  let t1 := add32 (add32 s.h (bigSigma1 s.e)) (add32 (shaCh s.e s.f s.g) (add32 k w))
  let t2 := add32 (bigSigma0 s.a) (shaMaj s.a s.b s.c)
  ⟨add32 t1 t2, s.a, s.b, s.c, add32 s.d t1, s.e, s.f, s.g⟩

/-- Process one 64-byte block. -/
def processBlock (hs : Hash8) (block : List Nat) : Hash8 :=
  let w16 := bytesToWords block
  let w := schedRest 48 w16.reverse
  let t := (sha256K.zip w).foldl (fun s p => shaRound s p.1 p.2) hs
  ⟨add32 hs.a t.a, add32 hs.b t.b, add32 hs.c t.c, add32 hs.d t.d,
   add32 hs.e t.e, add32 hs.f t.f, add32 hs.g t.g, add32 hs.h t.h⟩

/-- Split a byte list into 64-byte blocks (`fuel` bounds the recursion). -/
def toBlocks : Nat → List Nat → List (List Nat)
  | 0, _ => []
  | _, [] => []
  | fuel + 1, l => l.take 64 :: toBlocks fuel (l.drop 64)

/-- SHA-256 message padding: `0x80`, zeros, then the 64-bit big-endian bit
length, to a multiple of 64 bytes. -/
def padMessage (msg : List Nat) : List Nat :=
  let len := msg.length
  msg ++ 0x80 :: List.replicate ((119 - len % 64) % 64) 0 ++ toBytesBE 8 (len * 8)

/-- SHA-256 digest of a byte list, as 32 bytes. -/
def sha256 (msg : List Nat) : List Nat :=
  let padded := padMessage msg
  let t := (toBlocks padded.length padded).foldl processBlock sha256H0
  ([t.a, t.b, t.c, t.d, t.e, t.f, t.g, t.h].map (toBytesBE 4)).flatten

/-- Lowercase hexadecimal digit. -/
def hexDigit (n : Nat) : Char := "0123456789abcdef".toList.getD n '0'

/-- Embedding of `hash.digest('hex')` over the bytes fed to the hash:
lowercase hexadecimal encoding of the SHA-256 digest. -/
def sha256Hex (msg : List Nat) : String :=
  String.mk ((sha256 msg).map (fun b => [hexDigit (b / 16), hexDigit (b % 16)])).flatten

/-! ## Data model and service state -/

/-- Decidable equality for thrown-or-returned outcomes. -/
instance exceptDecEq {ε α : Type} [DecidableEq ε] [DecidableEq α] :
    DecidableEq (Except ε α) := fun a b =>
  match a, b with
  | .error e, .error e' =>
    if h : e = e' then .isTrue (by rw [h]) else .isFalse (by simp [h])
  | .ok x, .ok y =>
    if h : x = y then .isTrue (by rw [h]) else .isFalse (by simp [h])
  | .error _, .ok _ => .isFalse (by simp)
  | .ok _, .error _ => .isFalse (by simp)

/-- The Attachment record persisted by the metadata store (prisma model
`Attachment` as used by attachments.ts). -/
structure Attachment where
  id : String
  sessionId : String
  url : String
  storageKey : String
  filename : String
  mimeType : Option String
  size : Option JsNum
  checksum : Option String
  deriving DecidableEq, Repr

/-- Entry of the in-process upload-token map (`UploadTokenEntry`). -/
structure UploadTokenEntry where
  attachmentId : String
  expiresAt : Int
  deriving DecidableEq, Repr

/-- The in-process token map, with JavaScript `Map` semantics. -/
def TokenStore : Type := String → Option UploadTokenEntry

/-- The metadata store, keyed by attachment id. -/
def MetaStore : Type := String → Option Attachment

/-- State of one `AttachmentService` plus its collaborators: the token
map, the metadata store, the current clock reading (`Date.now()` in
milliseconds), the configured maximum attachment size and the storage
root directory. -/
structure SysState where
  tokens : TokenStore
  attachments : MetaStore
  now : Int
  maxBytes : Nat
  baseDir : String

/-- Parameters of `createUpload` (`CreateUploadParams`). -/
structure CreateUploadParams where
  sessionId : String
  filename : Option String
  mimeType : Option String
  size : Option JsNum
  deriving DecidableEq, Repr

/-- `DEFAULT_TTL_MS`: five minutes in milliseconds. -/
def DEFAULT_TTL_MS : Int := 300000

/-! ## Token store operations -/

/-- Embedding of `AttachmentService.consumeToken` (attachments.ts lines
105-116): look the token up; if absent return `none`; if present but with
`expiresAt < now` delete it and return `none`; otherwise delete it and
return the entry.  Returns the result paired with the updated map. -/
def consumeToken (tokens : TokenStore) (token : String) (now : Int) :
    Option UploadTokenEntry × TokenStore :=
  match tokens token with
  | none => (none, tokens)
  | some entry =>
    if entry.expiresAt < now then
      (none, fun t => if t = token then none else tokens t)
    else
      (some entry, fun t => if t = token then none else tokens t)

/-- Embedding of `AttachmentService.pruneExpiredTokens` (attachments.ts
lines 118-125): remove every entry with `expiresAt <= now`. -/
def pruneExpiredTokens (tokens : TokenStore) (now : Int) : TokenStore :=
  fun t =>
    match tokens t with
    | none => none
    | some entry => if entry.expiresAt ≤ now then none else some entry

/-! ## createUpload -/

/-- Result of `createUpload`: the upload handle fields used by claims plus
the service state after the call.  The random attachment id and token are
inputs of the embedding. -/
structure CreateResult where
  uploadUrl : String
  token : String
  attachment : Attachment
  state : SysState

/-- Embedding of `AttachmentService.createUpload` (attachments.ts lines
65-103): prune expired tokens, sanitize the filename (a missing or empty
filename falls back to `"attachment"` by JavaScript truthiness), build the
storage key `sessionId/attachmentId/cleanName` with `path.posix.join`,
create the Attachment record with `checksum = null` and `size` equal to
the caller-declared size or null, and insert a token entry expiring at
`now + DEFAULT_TTL_MS`. -/
def createUpload (st : SysState) (attachmentId token : String)
    (p : CreateUploadParams) : CreateResult :=
  let tokensPruned := pruneExpiredTokens st.tokens st.now
  let cleanName :=
    match p.filename with
    | some f => if f = "" then "attachment" else sanitizeFilename f
    | none => "attachment"
  let storageKey := ensurePosixKey (posixJoin [p.sessionId, attachmentId, cleanName])
  let attachment : Attachment :=
    { id := attachmentId
      sessionId := p.sessionId
      url := "attachment://" ++ storageKey
      storageKey := storageKey
      filename := cleanName
      mimeType := p.mimeType
      size := p.size
      checksum := none }
  let entry : UploadTokenEntry :=
    { attachmentId := attachmentId, expiresAt := st.now + DEFAULT_TTL_MS }
  { uploadUrl := "/v1/attachments/upload/" ++ token
    token := token
    attachment := attachment
    state :=
      { st with
        tokens := fun t => if t = token then some entry else tokensPruned t
        attachments := fun i => if i = attachmentId then some attachment else st.attachments i } }

/-! ## receiveUpload -/

/-- Inputs of one `receiveUpload` call: the token, the inbound stream as
the list of chunks it yields (each a byte list) followed by an optional
stream error, and the declared content type and length. -/
structure ReceiveInput where
  token : String
  chunks : List (List Nat)
  streamErr : Option String
  contentType : Option String
  contentLength : Option JsNum

/-- Observable outcome of one `receiveUpload` call: the returned value or
thrown error message, the service state afterwards, and the filesystem /
stream effects the claims are about. -/
structure ReceiveResult where
  result : Except String Attachment
  tokens : TokenStore
  attachments : MetaStore
  fileCreated : Bool
  tempFileExists : Bool
  bytesWrittenToDisk : Nat
  streamDestroyed : Bool

/-- Embedding of the derivation of `expectedSize` (attachments.ts line
142): the issuance-declared size counts only when it is a finite number
strictly greater than zero. -/
def expectedSizeOf (size : Option JsNum) : Option Int :=
  match size with
  | some (.finite n) => if 0 < n then some n else none
  | _ => none

/-- Embedding of the `contentLength` pre-check (attachments.ts lines
143-156), returning the thrown error message if any: non-finite or
negative lengths are `invalid-content-length`, lengths above the
configured maximum are `attachment-too-large`, lengths above the
issuance-declared bound are `attachment-size-exceeded`. -/
def precheck (maxBytes : Nat) (expected : Option Int)
    (contentLength : Option JsNum) : Option String :=
  match contentLength with
  | none => none
  | some cl =>
    if !cl.isFinite || cl.ltInt 0 then some "invalid-content-length"
    else if cl.gtNat maxBytes then some "attachment-too-large"
    else
      match expected with
      | some e => if cl.gtInt e then some "attachment-size-exceeded" else none
      | none => none

/-- Embedding of the `for await` ingestion loop (attachments.ts lines
171-185): per chunk, add its length to the running counter, fail with
`attachment-too-large` when the counter exceeds the configured maximum and
with `attachment-size-exceeded` when it exceeds the issuance-declared
bound, otherwise feed the chunk to the hash and the temporary file.  On
failure it returns the number of bytes already written to disk; on success
it returns the final counter and the accumulated bytes. -/
def streamLoop (maxBytes : Nat) (expected : Option Int) :
    List (List Nat) → Nat → List Nat → Except (String × Nat) (Nat × List Nat)
  | [], written, data => .ok (written, data)
  | chunk :: rest, written, data =>
    let written' := written + chunk.length
    if maxBytes < written' then .error ("attachment-too-large", data.length)
    else
      match expected with
      | some e =>
        if e < (written' : Int) then .error ("attachment-size-exceeded", data.length)
        else streamLoop maxBytes expected rest written' (data ++ chunk)
      | none => streamLoop maxBytes expected rest written' (data ++ chunk)

/-- Embedding of `AttachmentService.receiveUpload` (attachments.ts lines
127-228).  Steps: consume the token (unconditionally removing it); fetch
the attachment record; run the content-length pre-check (destroying the
stream on failure, before any file is created); stream the chunks into a
temporary file while counting and hashing; on any mid-stream failure run
`cleanup` (destroy the stream, remove the temporary file) and surface the
error; otherwise finalize the digest, rename the temporary file to the
storage path and update the record's `checksum`, `size`, `url` and
`mimeType`. -/
def receiveUpload (st : SysState) (inp : ReceiveInput) : ReceiveResult :=
  match consumeToken st.tokens inp.token st.now with
  | (none, tokens') =>
    { result := .error "invalid-upload-token"
      tokens := tokens', attachments := st.attachments
      fileCreated := false, tempFileExists := false
      bytesWrittenToDisk := 0, streamDestroyed := false }
  | (some entry, tokens') =>
    match st.attachments entry.attachmentId with
    | none =>
      { result := .error "attachment-not-found"
        tokens := tokens', attachments := st.attachments
        fileCreated := false, tempFileExists := false
        bytesWrittenToDisk := 0, streamDestroyed := false }
    | some attachment =>
      let expected := expectedSizeOf attachment.size
      match precheck st.maxBytes expected inp.contentLength with
      | some err =>
        { result := .error err
          tokens := tokens', attachments := st.attachments
          fileCreated := false, tempFileExists := false
          bytesWrittenToDisk := 0, streamDestroyed := true }
      | none =>
        let storagePath := buildStoragePath st.baseDir attachment.storageKey
        match streamLoop st.maxBytes expected inp.chunks 0 [] with
        | .error (msg, diskBytes) =>
          { result := .error msg
            tokens := tokens', attachments := st.attachments
            fileCreated := true, tempFileExists := false
            bytesWrittenToDisk := diskBytes, streamDestroyed := true }
        | .ok (written, data) =>
          match inp.streamErr with
          | some emsg =>
            { result := .error emsg
              tokens := tokens', attachments := st.attachments
              fileCreated := true, tempFileExists := false
              bytesWrittenToDisk := data.length, streamDestroyed := true }
          | none =>
            let updated : Attachment :=
              { attachment with
                checksum := some (sha256Hex data)
                size := some (.finite (written : Int))
                url := "file://" ++ storagePath
                mimeType :=
                  match inp.contentType with
                  | some c => some c
                  | none => attachment.mimeType }
            { result := .ok updated
              tokens := tokens'
              attachments := fun i => if i = attachment.id then some updated else st.attachments i
              fileCreated := true, tempFileExists := false
              bytesWrittenToDisk := data.length, streamDestroyed := false }

/-! ## openAttachmentPath -/

/-- Embedding of `AttachmentService.openAttachmentPath` (attachments.ts
lines 230-250): fetch the record, resolve the storage path, and check the
file exists (`fsExists` models `stat` succeeding).  The call only reads
the metadata store and the filesystem. -/
def openAttachmentPath (attachments : MetaStore) (fsExists : String → Bool)
    (baseDir : String) (attachmentId : String) :
    Except String (Attachment × String) :=
  match attachments attachmentId with
  | none => .error "attachment-not-found"
  | some a =>
    let storagePath := buildStoragePath baseDir a.storageKey
    if fsExists storagePath then .ok (a, storagePath)
    else .error "attachment-file-missing"

/-! ## Token store lemmas -/

/-- After `consumeToken` runs for a token, the resulting map no longer
contains that token, whether it was absent, expired or valid. -/
theorem consumeToken_snd_self (tokens : TokenStore) (tok : String) (now : Int) :
    (consumeToken tokens tok now).2 tok = none := by
  unfold consumeToken
  cases h : tokens tok with
  | none => simpa using h
  | some entry => by_cases he : entry.expiresAt < now <;> simp [he]

/-- `consumeToken` leaves every other key of the map unchanged. -/
theorem consumeToken_snd_other (tokens : TokenStore) (tok : String) (now : Int)
    (t' : String) (h : t' ≠ tok) :
    (consumeToken tokens tok now).2 t' = tokens t' := by
  unfold consumeToken
  cases htok : tokens tok with
  | none => rfl
  | some entry => by_cases he : entry.expiresAt < now <;> simp [he, h]

/-- `consumeToken` returns an entry exactly when the token is present and
its deadline is not strictly in the past. -/
theorem consumeToken_fst_iff (tokens : TokenStore) (tok : String) (now : Int)
    (e : UploadTokenEntry) :
    (consumeToken tokens tok now).1 = some e ↔
      tokens tok = some e ∧ ¬ e.expiresAt < now := by
  unfold consumeToken
  cases htok : tokens tok with
  | none => simp
  | some entry =>
    by_cases he : entry.expiresAt < now
    · simp only [he, if_pos]
      constructor
      · intro h; exact absurd h (by simp)
      · rintro ⟨h1, h2⟩
        cases h1
        exact absurd he h2
    · simp only [he, if_neg, not_false_iff]
      constructor
      · intro h
        cases h
        exact ⟨rfl, he⟩
      · rintro ⟨h1, _⟩
        cases h1
        rfl

/-- `receiveUpload` always leaves the token map as `consumeToken` left it;
no later step re-inserts the token. -/
theorem receiveUpload_tokens_eq (st : SysState) (inp : ReceiveInput) :
    (receiveUpload st inp).tokens = (consumeToken st.tokens inp.token st.now).2 := by
  rcases hc : consumeToken st.tokens inp.token st.now with ⟨o, tokens'⟩
  cases o with
  | none => simp [receiveUpload, hc]
  | some entry =>
    cases ha : st.attachments entry.attachmentId with
    | none => simp [receiveUpload, hc, ha]
    | some attachment =>
      cases hp : precheck st.maxBytes (expectedSizeOf attachment.size) inp.contentLength with
      | some err => simp [receiveUpload, hc, ha, hp]
      | none =>
        cases hl : streamLoop st.maxBytes (expectedSizeOf attachment.size) inp.chunks 0 [] with
        | error pr => obtain ⟨msg, diskBytes⟩ := pr; simp [receiveUpload, hc, ha, hp, hl]
        | ok pr =>
          obtain ⟨written, data⟩ := pr
          cases he : inp.streamErr with
          | some emsg => simp [receiveUpload, hc, ha, hp, hl, he]
          | none => simp [receiveUpload, hc, ha, hp, hl, he]

/-- A `receiveUpload` call whose token does not resolve fails with
`invalid-upload-token`. -/
theorem receiveUpload_invalid_token (st : SysState) (inp : ReceiveInput)
    (hc : (consumeToken st.tokens inp.token st.now).1 = none) :
    (receiveUpload st inp).result = .error "invalid-upload-token" := by
  unfold receiveUpload
  split
  · rfl
  · rename_i entry tokens' heq
    rw [heq] at hc
    simp at hc

/-- Rebuild the pair equation for `consumeToken` from an equation about
its first component. -/
theorem consumeToken_pair_eq (st : SysState) (inp : ReceiveInput)
    (o : Option UploadTokenEntry)
    (hc : (consumeToken st.tokens inp.token st.now).1 = o) :
    consumeToken st.tokens inp.token st.now =
      (o, (consumeToken st.tokens inp.token st.now).2) := by
  rw [← hc]

/-- Outcome of `receiveUpload` when the bound attachment record is
missing. -/
theorem receiveUpload_not_found (st : SysState) (inp : ReceiveInput)
    (entry : UploadTokenEntry)
    (hc : (consumeToken st.tokens inp.token st.now).1 = some entry)
    (ha : st.attachments entry.attachmentId = none) :
    (receiveUpload st inp).result = .error "attachment-not-found" := by
  rcases hcp : consumeToken st.tokens inp.token st.now with ⟨o, tokens'⟩
  rw [hcp] at hc
  simp only at hc
  subst hc
  simp [receiveUpload, hcp, ha]

/-- Outcome of `receiveUpload` when the content-length pre-check fails:
the declared error is thrown, the stream is destroyed, no file is created,
no bytes are written, and the metadata store is untouched. -/
theorem receiveUpload_precheck_error (st : SysState) (inp : ReceiveInput)
    (entry : UploadTokenEntry) (a : Attachment) (err : String)
    (hc : (consumeToken st.tokens inp.token st.now).1 = some entry)
    (ha : st.attachments entry.attachmentId = some a)
    (hpre : precheck st.maxBytes (expectedSizeOf a.size) inp.contentLength = some err) :
    receiveUpload st inp =
      { result := .error err
        tokens := (consumeToken st.tokens inp.token st.now).2
        attachments := st.attachments
        fileCreated := false, tempFileExists := false
        bytesWrittenToDisk := 0, streamDestroyed := true } := by
  rcases hcp : consumeToken st.tokens inp.token st.now with ⟨o, tokens'⟩
  rw [hcp] at hc
  simp only at hc
  subst hc
  simp [receiveUpload, hcp, ha, hpre]

/-- Outcome of `receiveUpload` when the ingestion loop aborts: the loop's
error is thrown, the temporary file is removed, the stream is destroyed,
and the metadata store is untouched. -/
theorem receiveUpload_loop_error (st : SysState) (inp : ReceiveInput)
    (entry : UploadTokenEntry) (a : Attachment) (msg : String) (diskBytes : Nat)
    (hc : (consumeToken st.tokens inp.token st.now).1 = some entry)
    (ha : st.attachments entry.attachmentId = some a)
    (hpre : precheck st.maxBytes (expectedSizeOf a.size) inp.contentLength = none)
    (hl : streamLoop st.maxBytes (expectedSizeOf a.size) inp.chunks 0 [] =
      .error (msg, diskBytes)) :
    receiveUpload st inp =
      { result := .error msg
        tokens := (consumeToken st.tokens inp.token st.now).2
        attachments := st.attachments
        fileCreated := true, tempFileExists := false
        bytesWrittenToDisk := diskBytes, streamDestroyed := true } := by
  rcases hcp : consumeToken st.tokens inp.token st.now with ⟨o, tokens'⟩
  rw [hcp] at hc
  simp only at hc
  subst hc
  simp [receiveUpload, hcp, ha, hpre, hl]

/-- Outcome of `receiveUpload` when the loop finishes but the stream
errors: the stream's error is surfaced after cleanup. -/
theorem receiveUpload_stream_error (st : SysState) (inp : ReceiveInput)
    (entry : UploadTokenEntry) (a : Attachment) (emsg : String)
    (written : Nat) (data : List Nat)
    (hc : (consumeToken st.tokens inp.token st.now).1 = some entry)
    (ha : st.attachments entry.attachmentId = some a)
    (hpre : precheck st.maxBytes (expectedSizeOf a.size) inp.contentLength = none)
    (hl : streamLoop st.maxBytes (expectedSizeOf a.size) inp.chunks 0 [] =
      .ok (written, data))
    (he : inp.streamErr = some emsg) :
    receiveUpload st inp =
      { result := .error emsg
        tokens := (consumeToken st.tokens inp.token st.now).2
        attachments := st.attachments
        fileCreated := true, tempFileExists := false
        bytesWrittenToDisk := data.length, streamDestroyed := true } := by
  rcases hcp : consumeToken st.tokens inp.token st.now with ⟨o, tokens'⟩
  rw [hcp] at hc
  simp only at hc
  subst hc
  simp [receiveUpload, hcp, ha, hpre, hl, he]

/-- Outcome of a fully successful `receiveUpload`: the record is updated
with the digest of the streamed bytes, their count, the resolved url and
the declared content type. -/
theorem receiveUpload_success (st : SysState) (inp : ReceiveInput)
    (entry : UploadTokenEntry) (a : Attachment)
    (written : Nat) (data : List Nat)
    (hc : (consumeToken st.tokens inp.token st.now).1 = some entry)
    (ha : st.attachments entry.attachmentId = some a)
    (hpre : precheck st.maxBytes (expectedSizeOf a.size) inp.contentLength = none)
    (hl : streamLoop st.maxBytes (expectedSizeOf a.size) inp.chunks 0 [] =
      .ok (written, data))
    (he : inp.streamErr = none) :
    (receiveUpload st inp).result =
      .ok { a with
            checksum := some (sha256Hex data)
            size := some (.finite (written : Int))
            url := "file://" ++ buildStoragePath st.baseDir a.storageKey
            mimeType :=
              match inp.contentType with
              | some c => some c
              | none => a.mimeType } := by
  rcases hcp : consumeToken st.tokens inp.token st.now with ⟨o, tokens'⟩
  rw [hcp] at hc
  simp only at hc
  subst hc
  simp [receiveUpload, hcp, ha, hpre, hl, he]

/-- Inversion for a successful `receiveUpload`: every `ok` outcome comes
from the final branch. -/
theorem receiveUpload_ok_inv (st : SysState) (inp : ReceiveInput) (a : Attachment)
    (h : (receiveUpload st inp).result = .ok a) :
    ∃ entry att written data,
      (consumeToken st.tokens inp.token st.now).1 = some entry ∧
      st.attachments entry.attachmentId = some att ∧
      precheck st.maxBytes (expectedSizeOf att.size) inp.contentLength = none ∧
      streamLoop st.maxBytes (expectedSizeOf att.size) inp.chunks 0 [] = .ok (written, data) ∧
      inp.streamErr = none ∧
      a = { att with
            checksum := some (sha256Hex data)
            size := some (.finite (written : Int))
            url := "file://" ++ buildStoragePath st.baseDir att.storageKey
            mimeType :=
              match inp.contentType with
              | some c => some c
              | none => att.mimeType } := by
  rcases hc : consumeToken st.tokens inp.token st.now with ⟨o, tokens'⟩
  cases o with
  | none => simp [receiveUpload, hc] at h
  | some entry =>
    cases ha : st.attachments entry.attachmentId with
    | none => simp [receiveUpload, hc, ha] at h
    | some att =>
      cases hp : precheck st.maxBytes (expectedSizeOf att.size) inp.contentLength with
      | some err => simp [receiveUpload, hc, ha, hp] at h
      | none =>
        cases hl : streamLoop st.maxBytes (expectedSizeOf att.size) inp.chunks 0 [] with
        | error pr => obtain ⟨msg, diskBytes⟩ := pr; simp [receiveUpload, hc, ha, hp, hl] at h
        | ok pr =>
          obtain ⟨written, data⟩ := pr
          cases he : inp.streamErr with
          | some emsg => simp [receiveUpload, hc, ha, hp, hl, he] at h
          | none =>
            refine ⟨entry, att, written, data, rfl, ha, hp, hl, rfl, ?_⟩
            simp [receiveUpload, hc, ha, hp, hl, he] at h
            exact h.symm

/-- Every failing `receiveUpload` leaves the metadata store untouched. -/
theorem receiveUpload_error_attachments (st : SysState) (inp : ReceiveInput)
    (e : String) (h : (receiveUpload st inp).result = .error e) :
    (receiveUpload st inp).attachments = st.attachments := by
  rcases hc : consumeToken st.tokens inp.token st.now with ⟨o, tokens'⟩
  cases o with
  | none => simp [receiveUpload, hc]
  | some entry =>
    cases ha : st.attachments entry.attachmentId with
    | none => simp [receiveUpload, hc, ha]
    | some att =>
      cases hp : precheck st.maxBytes (expectedSizeOf att.size) inp.contentLength with
      | some err => simp [receiveUpload, hc, ha, hp]
      | none =>
        cases hl : streamLoop st.maxBytes (expectedSizeOf att.size) inp.chunks 0 [] with
        | error pr => obtain ⟨msg, diskBytes⟩ := pr; simp [receiveUpload, hc, ha, hp, hl]
        | ok pr =>
          obtain ⟨written, data⟩ := pr
          cases he : inp.streamErr with
          | some emsg => simp [receiveUpload, hc, ha, hp, hl, he]
          | none => simp [receiveUpload, hc, ha, hp, hl, he] at h

/-! ## Stream loop lemmas -/

/-- A successful ingestion loop accumulates exactly the concatenation of
the chunks and counts exactly their total length. -/
theorem streamLoop_ok_inv (maxBytes : Nat) (expected : Option Int) :
    ∀ (chunks : List (List Nat)) (written : Nat) (data : List Nat)
      (w : Nat) (d : List Nat),
      streamLoop maxBytes expected chunks written data = .ok (w, d) →
      d = data ++ chunks.flatten ∧ w = written + chunks.flatten.length := by
  intro chunks
  induction chunks with
  | nil => intro written data w d h; simp [streamLoop] at h; simp [h.1, h.2]
  | cons chunk rest ih =>
    intro written data w d h
    simp only [streamLoop] at h
    by_cases hmax : maxBytes < written + chunk.length
    · rw [if_pos hmax] at h; simp at h
    · rw [if_neg hmax] at h
      cases hexp : expected with
      | none =>
        subst hexp
        simp only [] at h
        obtain ⟨h1, h2⟩ := ih (written + chunk.length) (data ++ chunk) w d h
        refine ⟨?_, ?_⟩
        · rw [h1, List.flatten_cons, List.append_assoc]
        · rw [h2, List.flatten_cons, List.length_append]; omega
      | some e =>
        subst hexp
        simp only [] at h
        by_cases hs : e < ((written + chunk.length : Nat) : Int)
        · rw [if_pos hs] at h; simp at h
        · rw [if_neg hs] at h
          obtain ⟨h1, h2⟩ := ih (written + chunk.length) (data ++ chunk) w d h
          refine ⟨?_, ?_⟩
          · rw [h1, List.flatten_cons, List.append_assoc]
          · rw [h2, List.flatten_cons, List.length_append]; omega

/-- When no issuance-declared bound applies and the total size stays
within the configured maximum, the ingestion loop succeeds. -/
theorem streamLoop_none_ok (maxBytes : Nat) :
    ∀ (chunks : List (List Nat)) (written : Nat) (data : List Nat),
      written + chunks.flatten.length ≤ maxBytes →
      streamLoop maxBytes none chunks written data =
        .ok (written + chunks.flatten.length, data ++ chunks.flatten) := by
  intro chunks
  induction chunks with
  | nil => intro written data _; simp [streamLoop]
  | cons chunk rest ih =>
    intro written data h
    simp only [List.flatten_cons, List.length_append] at h
    have hmax : ¬ maxBytes < written + chunk.length := by omega
    simp only [streamLoop]
    rw [if_neg hmax]
    rw [ih (written + chunk.length) (data ++ chunk) (by omega)]
    have h1 : written + chunk.length + rest.flatten.length =
        written + (chunk :: rest).flatten.length := by
      rw [List.flatten_cons, List.length_append]; omega
    have h2 : (data ++ chunk) ++ rest.flatten = data ++ (chunk :: rest).flatten := by
      rw [List.flatten_cons, List.append_assoc]
    rw [h1, h2]

/-- `consumeToken` on an absent token returns nothing. -/
theorem consumeToken_absent (tokens : TokenStore) (tok : String) (now : Int)
    (h : tokens tok = none) : (consumeToken tokens tok now).1 = none := by
  simp [consumeToken, h]

/-- `consumeToken` on an expired token returns nothing. -/
theorem consumeToken_expired (tokens : TokenStore) (tok : String) (now : Int)
    (e : UploadTokenEntry) (h : tokens tok = some e) (he : e.expiresAt < now) :
    (consumeToken tokens tok now).1 = none := by
  simp [consumeToken, h, he]

/-! ## Concrete fixtures used by witnesses and counterexamples -/

/-- A token map holding one ticket. -/
def fixTokens : TokenStore := fun t => if t = "tok1" then some ⟨"a1", 500⟩ else none

/-- A pending attachment record, as `createUpload` leaves it with no
caller-declared size. -/
def fixAtt : Attachment :=
  { id := "a1", sessionId := "s1", url := "attachment://s1/a1/f.txt"
    storageKey := "s1/a1/f.txt", filename := "f.txt"
    mimeType := none, size := none, checksum := none }

/-- A metadata store holding the pending attachment. -/
def fixStore : MetaStore := fun i => if i = "a1" then some fixAtt else none

/-- A service state over the fixtures. -/
def fixState : SysState :=
  { tokens := fixTokens, attachments := fixStore
    now := 100, maxBytes := 26214400, baseDir := "att" }

/-- A plain upload request over the valid ticket. -/
def fixInput : ReceiveInput :=
  { token := "tok1", chunks := [[97], [98, 99]], streamErr := none
    contentType := none, contentLength := none }

/-- Issue parameters with no declared size. -/
def fixParams : CreateUploadParams :=
  { sessionId := "s1", filename := some "f.txt", mimeType := none, size := none }

/-! ## Claim C2 -/

/-- C2: the first `receiveUpload` call removes the ticket from the store
unconditionally, so any later call whose token store is the one the first
call left behind fails with `invalid-upload-token`, regardless of how the
first call ended; at most one call ever observes the ticket. -/
theorem c2_single_token_consumption (st : SysState) (inp : ReceiveInput)
    (st' : SysState) (inp' : ReceiveInput)
    (htok : inp'.token = inp.token)
    (hst : st'.tokens = (receiveUpload st inp).tokens) :
    (receiveUpload st inp).tokens inp.token = none ∧
    (receiveUpload st' inp').result = .error "invalid-upload-token" := by
  have habs : (receiveUpload st inp).tokens inp.token = none := by
    rw [receiveUpload_tokens_eq]
    exact consumeToken_snd_self st.tokens inp.token st.now
  refine ⟨habs, ?_⟩
  apply receiveUpload_invalid_token
  rw [htok, hst]
  exact consumeToken_absent _ _ _ habs

/-- Witness for C2 at the concrete fixtures: a second call over the token
store left by the first fails. -/
theorem c2_single_token_consumption_witness :
    (receiveUpload fixState fixInput).tokens fixInput.token = none ∧
    (receiveUpload
      { fixState with tokens := (receiveUpload fixState fixInput).tokens }
      fixInput).result = .error "invalid-upload-token" :=
  c2_single_token_consumption fixState fixInput
    { fixState with tokens := (receiveUpload fixState fixInput).tokens }
    fixInput rfl rfl

/-! ## Claim C7 -/

/-- C7: `consumeToken` is an atomic get-and-remove returning the entry
exactly when it is present and not yet past `expiresAt` (an expired entry
behaves as absent); the deadline written at issuance is `now` plus the
five-minute time-to-live, so a `receiveUpload` attempted six minutes after
issuance fails with `invalid-upload-token`. -/
theorem c7_consume_and_ttl :
    (∀ (tokens : TokenStore) (tok : String) (now : Int) (e : UploadTokenEntry),
      ((consumeToken tokens tok now).1 = some e ↔
        tokens tok = some e ∧ ¬ e.expiresAt < now) ∧
      (consumeToken tokens tok now).2 tok = none ∧
      (∀ t', t' ≠ tok → (consumeToken tokens tok now).2 t' = tokens t')) ∧
    (∀ (st : SysState) (aid tok : String) (p : CreateUploadParams),
      (createUpload st aid tok p).state.tokens tok =
        some { attachmentId := aid, expiresAt := st.now + DEFAULT_TTL_MS }) ∧
    (∀ (st : SysState) (aid tok : String) (p : CreateUploadParams)
        (st' : SysState) (inp : ReceiveInput),
      st'.tokens = (createUpload st aid tok p).state.tokens →
      st'.now = st.now + 360000 →
      inp.token = tok →
      (receiveUpload st' inp).result = .error "invalid-upload-token") := by
  refine ⟨?_, ?_, ?_⟩
  · intro tokens tok now e
    exact ⟨consumeToken_fst_iff tokens tok now e,
      consumeToken_snd_self tokens tok now,
      fun t' h => consumeToken_snd_other tokens tok now t' h⟩
  · intro st aid tok p
    simp [createUpload]
  · intro st aid tok p st' inp hst hnow htok
    apply receiveUpload_invalid_token
    rw [htok, hst, hnow]
    apply consumeToken_expired _ _ _
      { attachmentId := aid, expiresAt := st.now + DEFAULT_TTL_MS }
    · simp [createUpload]
    · simp only [DEFAULT_TTL_MS]
      omega

/-- Witness for C7 at the concrete fixtures, including the six-minute
delay of Scenario B. -/
theorem c7_consume_and_ttl_witness :
    (consumeToken fixTokens "tok1" 100).2 "tok1" = none ∧
    (createUpload fixState "a2" "tok2" fixParams).state.tokens "tok2" =
      some { attachmentId := "a2", expiresAt := 100 + DEFAULT_TTL_MS } ∧
    (receiveUpload
      { (createUpload fixState "a2" "tok2" fixParams).state with now := 100 + 360000 }
      { fixInput with token := "tok2" }).result = .error "invalid-upload-token" :=
  ⟨(c7_consume_and_ttl.1 fixTokens "tok1" 100 ⟨"a1", 500⟩).2.1,
   c7_consume_and_ttl.2.1 fixState "a2" "tok2" fixParams,
   c7_consume_and_ttl.2.2 fixState "a2" "tok2" fixParams
     { (createUpload fixState "a2" "tok2" fixParams).state with now := 100 + 360000 }
     { fixInput with token := "tok2" } rfl rfl rfl⟩

/-! ## Claim C10 -/

/-- C10: at the exact boundary instant where `expiresAt` equals the
current time, `consumeToken` still returns the entry (expiry for
consumption is strict), while the periodic sweep removes the same entry
(sweep uses less-or-equal). -/
theorem c10_boundary_consume_vs_sweep (tokens : TokenStore) (tok : String)
    (e : UploadTokenEntry) (now : Int)
    (hpresent : tokens tok = some e) (hboundary : e.expiresAt = now) :
    (consumeToken tokens tok now).1 = some e ∧
    pruneExpiredTokens tokens now tok = none := by
  constructor
  · rw [consumeToken_fst_iff]
    exact ⟨hpresent, by omega⟩
  · simp [pruneExpiredTokens, hpresent, hboundary]

/-- Witness for C10: a ticket whose deadline equals the clock is consumed
as valid, yet the sweep deletes it. -/
theorem c10_boundary_consume_vs_sweep_witness :
    (consumeToken fixTokens "tok1" 500).1 = some ⟨"a1", 500⟩ ∧
    pruneExpiredTokens fixTokens 500 "tok1" = none :=
  c10_boundary_consume_vs_sweep fixTokens "tok1" ⟨"a1", 500⟩ 500 (by decide) rfl

/-! ## Claim C1 -/

/-- The invariant claimed by the spec: `checksum` and `size` are both null
or both set. -/
def checksumSizeTogether (a : Attachment) : Prop :=
  (a.checksum = none ∧ a.size = none) ∨ (a.checksum ≠ none ∧ a.size ≠ none)

instance (a : Attachment) : Decidable (checksumSizeTogether a) := by
  unfold checksumSizeTogether
  infer_instance

/-- Counterexample to C1: a record created with a caller-declared size of
1000 has `size` set while `checksum` is still null, so the invariant does
not hold at issuance. -/
theorem c1_created_record_violates_invariant :
    ¬ checksumSizeTogether
      ((createUpload fixState "a2" "tok2"
        { fixParams with size := some (.finite 1000) }).attachment) := by
  decide

/-- C1 (amended): `createUpload` always sets `checksum` to null and `size`
to the caller-declared size or null — so the both-null-or-both-set
invariant holds at issuance only when no size was declared; `checksum` and
`size` become set together at a successful `receiveUpload` commit, and a
failed `receiveUpload` leaves every record unchanged. -/
theorem c1_checksum_size_transition :
    (∀ (st : SysState) (aid tok : String) (p : CreateUploadParams),
      (createUpload st aid tok p).attachment.checksum = none ∧
      (createUpload st aid tok p).attachment.size = p.size) ∧
    (∀ (st : SysState) (inp : ReceiveInput) (a : Attachment),
      (receiveUpload st inp).result = .ok a →
      a.checksum ≠ none ∧ a.size ≠ none) ∧
    (∀ (st : SysState) (inp : ReceiveInput) (e : String),
      (receiveUpload st inp).result = .error e →
      (receiveUpload st inp).attachments = st.attachments) := by
  refine ⟨fun st aid tok p => ⟨rfl, rfl⟩, ?_, ?_⟩
  · intro st inp a h
    obtain ⟨entry, att, written, data, _, _, _, _, _, ha⟩ :=
      receiveUpload_ok_inv st inp a h
    subst ha
    simp
  · intro st inp e h
    exact receiveUpload_error_attachments st inp e h

/-- The attachment record the successful fixture upload commits. -/
def fixUpdatedAtt : Attachment :=
  { id := "a1", sessionId := "s1", url := "file://att/s1/a1/f.txt"
    storageKey := "s1/a1/f.txt", filename := "f.txt", mimeType := none
    size := some (.finite 3)
    checksum := some "ba7816bf8f01cfea414140de5dae2223b00361a396177a9cb410ff61f20015ad" }

set_option maxRecDepth 8000 in
/-- Witness for the amended C1 at the concrete fixtures. -/
theorem c1_checksum_size_transition_witness :
    ((createUpload fixState "a2" "tok2" fixParams).attachment.checksum = none ∧
     (createUpload fixState "a2" "tok2" fixParams).attachment.size = fixParams.size) ∧
    (fixUpdatedAtt.checksum ≠ none ∧ fixUpdatedAtt.size ≠ none) ∧
    (receiveUpload fixState { fixInput with token := "bad" }).attachments =
      fixState.attachments :=
  ⟨c1_checksum_size_transition.1 fixState "a2" "tok2" fixParams,
   c1_checksum_size_transition.2.1 fixState fixInput fixUpdatedAtt (by decide),
   c1_checksum_size_transition.2.2 fixState { fixInput with token := "bad" }
     "invalid-upload-token" (by decide)⟩

/-! ## Claim C3 -/

/-- C3: whenever a `receiveUpload` call fails after reaching the streaming
phase (the temporary file has been created) — byte count over the maximum,
over the issuance-declared bound, or a stream error — the temporary file is
gone, the inbound stream is destroyed, and the metadata store is exactly
what it was before the call. -/
theorem c3_midstream_abort_cleanup (st : SysState) (inp : ReceiveInput)
    (herr : ∃ e, (receiveUpload st inp).result = .error e)
    (hfile : (receiveUpload st inp).fileCreated = true) :
    (receiveUpload st inp).tempFileExists = false ∧
    (receiveUpload st inp).streamDestroyed = true ∧
    (receiveUpload st inp).attachments = st.attachments := by
  obtain ⟨e, herr⟩ := herr
  rcases hc : consumeToken st.tokens inp.token st.now with ⟨o, tokens'⟩
  cases o with
  | none => simp [receiveUpload, hc] at hfile
  | some entry =>
    cases ha : st.attachments entry.attachmentId with
    | none => simp [receiveUpload, hc, ha] at hfile
    | some att =>
      cases hp : precheck st.maxBytes (expectedSizeOf att.size) inp.contentLength with
      | some err => simp [receiveUpload, hc, ha, hp] at hfile
      | none =>
        cases hl : streamLoop st.maxBytes (expectedSizeOf att.size) inp.chunks 0 [] with
        | error pr =>
          obtain ⟨msg, diskBytes⟩ := pr
          simp [receiveUpload, hc, ha, hp, hl]
        | ok pr =>
          obtain ⟨written, data⟩ := pr
          cases he : inp.streamErr with
          | some emsg => simp [receiveUpload, hc, ha, hp, hl, he]
          | none => simp [receiveUpload, hc, ha, hp, hl, he] at herr

/-- A state whose configured maximum the fixture upload exceeds
mid-stream. -/
def fixStateSmall : SysState := { fixState with maxBytes := 2 }

/-- Witness for C3: the three-byte fixture upload against a two-byte
maximum aborts mid-stream with full cleanup. -/
theorem c3_midstream_abort_cleanup_witness :
    (receiveUpload fixStateSmall fixInput).tempFileExists = false ∧
    (receiveUpload fixStateSmall fixInput).streamDestroyed = true ∧
    (receiveUpload fixStateSmall fixInput).attachments = fixStateSmall.attachments :=
  c3_midstream_abort_cleanup fixStateSmall fixInput
    ⟨"attachment-too-large", by decide⟩ (by decide)

/-! ## Claim C4 -/

/-- C4: a successful `receiveUpload` returns an attachment whose checksum
is the SHA-256 hex digest of exactly the concatenated uploaded bytes (the
per-chunk incremental hash equals the hash of the concatenation) and whose
size is their count. -/
theorem c4_checksum_roundtrip (st : SysState) (inp : ReceiveInput) (a : Attachment)
    (h : (receiveUpload st inp).result = .ok a) :
    a.checksum = some (sha256Hex inp.chunks.flatten) ∧
    a.size = some (.finite (inp.chunks.flatten.length : Int)) := by
  obtain ⟨entry, att, written, data, hc, ha, hp, hl, he, rfl⟩ :=
    receiveUpload_ok_inv st inp a h
  obtain ⟨h1, h2⟩ :=
    streamLoop_ok_inv st.maxBytes (expectedSizeOf att.size) inp.chunks 0 [] written data hl
  simp only [List.nil_append, Nat.zero_add] at h1 h2
  subst h1
  subst h2
  exact ⟨rfl, rfl⟩

set_option maxRecDepth 8000 in
/-- Witness for C4: the fixture upload of `"abc"` in two chunks yields the
independently known SHA-256 digest of `"abc"` and size 3. -/
theorem c4_checksum_roundtrip_witness :
    fixUpdatedAtt.checksum = some (sha256Hex fixInput.chunks.flatten) ∧
    fixUpdatedAtt.size = some (.finite (fixInput.chunks.flatten.length : Int)) :=
  c4_checksum_roundtrip fixState fixInput fixUpdatedAtt (by decide)

/-! ## Claim C5 -/

/-- The effects common to every pre-check failure: the stream is
destroyed and nothing ever reaches the disk. -/
def nofileOutcome (r : ReceiveResult) : Prop :=
  r.fileCreated = false ∧ r.tempFileExists = false ∧
  r.bytesWrittenToDisk = 0 ∧ r.streamDestroyed = true

/-- C5: with a provided `declaredContentLength` the pre-check fails before
any bytes are read or any file is created — `invalid-content-length` for a
negative or non-finite length, `attachment-too-large` above the configured
maximum, `attachment-size-exceeded` above the issuance-declared bound —
and in each case the inbound stream is destroyed and zero bytes reach the
disk. -/
theorem c5_precheck_failfast (st : SysState) (inp : ReceiveInput)
    (entry : UploadTokenEntry) (a : Attachment) (cl : JsNum)
    (hc : (consumeToken st.tokens inp.token st.now).1 = some entry)
    (ha : st.attachments entry.attachmentId = some a)
    (hcl : inp.contentLength = some cl) :
    ((cl.isFinite = false ∨ cl.ltInt 0 = true) →
      (receiveUpload st inp).result = .error "invalid-content-length" ∧
      nofileOutcome (receiveUpload st inp)) ∧
    ((cl.isFinite = true ∧ cl.ltInt 0 = false ∧ cl.gtNat st.maxBytes = true) →
      (receiveUpload st inp).result = .error "attachment-too-large" ∧
      nofileOutcome (receiveUpload st inp)) ∧
    (∀ s : Int, cl.isFinite = true → cl.ltInt 0 = false →
      cl.gtNat st.maxBytes = false →
      expectedSizeOf a.size = some s → cl.gtInt s = true →
      (receiveUpload st inp).result = .error "attachment-size-exceeded" ∧
      nofileOutcome (receiveUpload st inp)) := by
  have base : ∀ err : String,
      precheck st.maxBytes (expectedSizeOf a.size) inp.contentLength = some err →
      (receiveUpload st inp).result = .error err ∧
      nofileOutcome (receiveUpload st inp) := by
    intro err hpre
    rw [receiveUpload_precheck_error st inp entry a err hc ha hpre]
    exact ⟨rfl, rfl, rfl, rfl, rfl⟩
  refine ⟨?_, ?_, ?_⟩
  · intro h
    apply base
    rcases h with h | h <;> simp [precheck, hcl, h]
  · rintro ⟨h1, h2, h3⟩
    apply base
    simp [precheck, hcl, h1, h2, h3]
  · intro s h1 h2 h3 hs h4
    apply base
    simp [precheck, hcl, h1, h2, h3, hs, h4]

/-- Scenario C configuration: maximum attachment size 25 000 000 bytes. -/
def fixStateC : SysState := { fixState with maxBytes := 25000000 }

/-- Scenario C request: declared content length 30 000 000. -/
def fixInputC : ReceiveInput := { fixInput with contentLength := some (.finite 30000000) }

/-- Witness for C5, Scenario C: declared length 30 000 000 against maximum
25 000 000 yields `attachment-too-large` with zero bytes written. -/
theorem c5_precheck_failfast_witness :
    (receiveUpload fixStateC fixInputC).result = .error "attachment-too-large" ∧
    nofileOutcome (receiveUpload fixStateC fixInputC) :=
  (c5_precheck_failfast fixStateC fixInputC ⟨"a1", 500⟩ fixAtt (.finite 30000000)
    (by decide) (by decide) rfl).2.1 ⟨rfl, by decide, by decide⟩

/-! ## Claim C9 -/

/-- C9: an attachment issued with a caller-declared size of zero (or any
non-positive or non-finite value) carries no issuance bound — the derived
`expectedSize` is null, so neither the content-length pre-check nor the
streaming counter compares against it, and an upload of any number of
bytes within the configured maximum succeeds. -/
theorem c9_nonpositive_declared_size_ignored (st : SysState) (inp : ReceiveInput)
    (entry : UploadTokenEntry) (a : Attachment) (sz : JsNum) (cl : Int)
    (hc : (consumeToken st.tokens inp.token st.now).1 = some entry)
    (ha : st.attachments entry.attachmentId = some a)
    (hsz : a.size = some sz)
    (hnp : sz.isFinite = false ∨ ∃ n, sz = JsNum.finite n ∧ n ≤ 0)
    (hcl : inp.contentLength = some (.finite cl))
    (hcl0 : 0 ≤ cl) (hclmax : cl ≤ (st.maxBytes : Int))
    (htot : inp.chunks.flatten.length ≤ st.maxBytes)
    (herr : inp.streamErr = none) :
    expectedSizeOf a.size = none ∧
    ∃ a', (receiveUpload st inp).result = .ok a' ∧
      a'.size = some (.finite (inp.chunks.flatten.length : Int)) ∧
      a'.checksum = some (sha256Hex inp.chunks.flatten) := by
  have hexp : expectedSizeOf a.size = none := by
    rw [hsz]
    rcases hnp with h | ⟨n, rfl, hn⟩
    · cases sz with
      | finite n => simp [JsNum.isFinite] at h
      | nan => rfl
      | posInf => rfl
      | negInf => rfl
    · simp [expectedSizeOf]
      omega
  have hpre : precheck st.maxBytes (expectedSizeOf a.size) inp.contentLength = none := by
    rw [hexp, hcl]
    simp only [precheck, JsNum.isFinite, JsNum.ltInt, JsNum.gtNat, JsNum.gtInt,
      Int.ofNat_eq_coe, Bool.not_true, Bool.false_or]
    rw [if_neg (by simp; omega), if_neg (by simp; omega)]
  have hloop : streamLoop st.maxBytes (expectedSizeOf a.size) inp.chunks 0 [] =
      .ok (inp.chunks.flatten.length, inp.chunks.flatten) := by
    rw [hexp]
    have := streamLoop_none_ok st.maxBytes inp.chunks 0 [] (by omega)
    simpa using this
  refine ⟨hexp, _, receiveUpload_success st inp entry a _ _ hc ha hpre hloop herr, rfl, rfl⟩

/-- The fixture attachment issued with a declared size of zero. -/
def fixAttZero : Attachment := { fixAtt with size := some (.finite 0) }

/-- A metadata store holding the zero-declared-size attachment. -/
def fixStoreZero : MetaStore := fun i => if i = "a1" then some fixAttZero else none

/-- Service state over the zero-declared-size attachment. -/
def fixStateZero : SysState := { fixState with attachments := fixStoreZero }

/-- Request declaring three bytes of content. -/
def fixInputZero : ReceiveInput := { fixInput with contentLength := some (.finite 3) }

/-- Witness for C9: three bytes uploaded against a declared size of zero
succeed, with the declared content length 3 likewise never compared to the
zero bound. -/
theorem c9_nonpositive_declared_size_ignored_witness :
    expectedSizeOf fixAttZero.size = none ∧
    ∃ a', (receiveUpload fixStateZero fixInputZero).result = .ok a' ∧
      a'.size = some (.finite (fixInputZero.chunks.flatten.length : Int)) ∧
      a'.checksum = some (sha256Hex fixInputZero.chunks.flatten) :=
  c9_nonpositive_declared_size_ignored fixStateZero fixInputZero
    ⟨"a1", 500⟩ fixAttZero (.finite 0) 3
    (by decide) (by decide) rfl (Or.inr ⟨0, rfl, le_refl 0⟩) rfl
    (by decide) (by decide) (by decide) rfl

/-! ## String and path lemmas for Claim C6 -/

/-- Rebuilding a string from its character list. -/
theorem string_mk_toList (s : String) : String.mk s.toList = s := rfl

/-- Character list of a concatenation. -/
theorem string_toList_append (a b : String) :
    (a ++ b).toList = a.toList ++ b.toList := rfl

/-- Appending raw strings appends their character lists. -/
theorem string_mk_append (a b : List Char) :
    String.mk a ++ String.mk b = String.mk (a ++ b) := rfl

/-- A string is empty exactly when its character list is. -/
theorem string_eq_empty_iff (s : String) : s = "" ↔ s.toList = [] := by
  constructor
  · intro h; rw [h]; rfl
  · intro h
    have := congrArg String.mk h
    rwa [string_mk_toList] at this

/-- `splitSeg` always returns at least one segment. -/
theorem splitSeg_ne_nil (l : List Char) : ∀ acc, splitSeg l acc ≠ [] := by
  induction l with
  | nil => intro acc; simp [splitSeg]
  | cons c rest ih =>
    intro acc
    by_cases h : c = '/'
    · simp [splitSeg, h]
    · simp only [splitSeg, if_neg h]
      exact ih (c :: acc)

/-- `splitSeg` over separator-free input returns the single accumulated
segment. -/
theorem splitSeg_no_sep (l : List Char) (hl : ∀ c ∈ l, c ≠ '/') :
    ∀ acc, splitSeg l acc = [String.mk (acc.reverse ++ l)] := by
  induction l with
  | nil => intro acc; simp [splitSeg]
  | cons c rest ih =>
    intro acc
    have hc : c ≠ '/' := hl c (by simp)
    simp only [splitSeg, if_neg hc]
    rw [ih (fun x hx => hl x (by simp [hx])) (c :: acc)]
    simp

/-- Splitting a separator-free string yields that string alone. -/
theorem splitSlash_no_sep (s : String) (hs : ∀ c ∈ s.toList, c ≠ '/') :
    splitSlash s = [s] := by
  unfold splitSlash
  rw [splitSeg_no_sep s.toList hs []]
  simp [string_mk_toList]

/-- `splitSeg` distributes over an explicit separator when the prefix has
none. -/
theorem splitSeg_append_sep (l1 : List Char) (h1 : ∀ c ∈ l1, c ≠ '/')
    (l2 : List Char) : ∀ acc,
    splitSeg (l1 ++ '/' :: l2) acc = String.mk (acc.reverse ++ l1) :: splitSeg l2 [] := by
  induction l1 with
  | nil => intro acc; simp [splitSeg]
  | cons c rest ih =>
    intro acc
    have hc : c ≠ '/' := h1 c (by simp)
    simp only [List.cons_append, splitSeg, if_neg hc]
    simpa using ih (fun x hx => h1 x (by simp [hx])) (c :: acc)

/-- Splitting a string of the form `x ++ "/" ++ y` with separator-free `x`
peels off `x`. -/
theorem splitSlash_append (x y : String) (hx : ∀ c ∈ x.toList, c ≠ '/') :
    splitSlash (x ++ "/" ++ y) = x :: splitSlash y := by
  unfold splitSlash
  have : (x ++ "/" ++ y).toList = x.toList ++ '/' :: y.toList := by
    rw [string_toList_append, string_toList_append, List.append_assoc]
    rfl
  rw [this, splitSeg_append_sep x.toList hx y.toList []]
  simp [string_mk_toList]

/-- `joinSlash` over a list with at least two entries. -/
theorem joinSlash_cons_cons (x : String) (L : List String) (h : L ≠ []) :
    joinSlash (x :: L) = x ++ "/" ++ joinSlash L := by
  cases L with
  | nil => exact absurd rfl h
  | cons y rest => rfl

/-- Splitting inverts joining when every segment is separator-free. -/
theorem splitSlash_joinSlash (L : List String) (hne : L ≠ [])
    (hfree : ∀ s ∈ L, ∀ c ∈ s.toList, c ≠ '/') :
    splitSlash (joinSlash L) = L := by
  induction L with
  | nil => exact absurd rfl hne
  | cons x rest ih =>
    cases rest with
    | nil =>
      show splitSlash (joinSlash [x]) = [x]
      exact splitSlash_no_sep x (hfree x (by simp))
    | cons y rest' =>
      rw [joinSlash_cons_cons x (y :: rest') (by simp)]
      rw [splitSlash_append x (joinSlash (y :: rest')) (hfree x (by simp))]
      rw [ih (by simp) (fun s hs => hfree s (by simp [hs]))]

/-- Joining inverts splitting: `splitSeg` then `joinSlash` restores the
input. -/
theorem joinSlash_splitSeg (l : List Char) :
    ∀ acc, joinSlash (splitSeg l acc) = String.mk (acc.reverse ++ l) := by
  induction l with
  | nil => intro acc; simp [splitSeg, joinSlash]
  | cons c rest ih =>
    intro acc
    by_cases h : c = '/'
    · simp only [splitSeg]
      rw [if_pos h]
      subst h
      rw [joinSlash_cons_cons _ _ (splitSeg_ne_nil rest [])]
      rw [ih []]
      rw [show ("/" : String) = String.mk ['/'] from rfl,
        string_mk_append, string_mk_append]
      simp
    · simp only [splitSeg, if_neg h]
      rw [ih (c :: acc)]
      simp

/-- `ensurePosixKey` is the identity on a posix host. -/
theorem ensurePosixKey_id (s : String) : ensurePosixKey s = s := by
  unfold ensurePosixKey splitSlash
  rw [joinSlash_splitSeg s.toList []]
  simp [string_mk_toList]

/-- A string whose characters are all allowed by the sanitizer contains no
separator. -/
theorem allowed_no_sep (s : String) (h : ∀ c ∈ s.toList, isAllowedChar c = true) :
    ∀ c ∈ s.toList, c ≠ '/' := by
  intro c hc heq
  subst heq
  exact absurd (h _ hc) (by decide)

/-- Every character of a sanitized filename is allowed. -/
theorem sanitizeFilename_allowed (f : String) :
    ∀ c ∈ (sanitizeFilename f).toList, isAllowedChar c = true := by
  unfold sanitizeFilename
  by_cases h : (collapseWs (trimWs f.toList)).filter isAllowedChar = []
  · rw [if_pos h]
    intro c hc
    fin_cases hc <;> decide
  · rw [if_neg h]
    intro c hc
    exact List.of_mem_filter hc

/-- A sanitized filename is never empty. -/
theorem sanitizeFilename_ne_empty (f : String) : sanitizeFilename f ≠ "" := by
  unfold sanitizeFilename
  by_cases h : (collapseWs (trimWs f.toList)).filter isAllowedChar = []
  · rw [if_pos h]; decide
  · rw [if_neg h]
    intro hcontra
    rw [string_eq_empty_iff] at hcontra
    exact h hcontra

/-- A separator-free string does not start with a slash. -/
theorem startsWithSlash_false (s : String) (hs : ∀ ch ∈ s.toList, ch ≠ '/') :
    startsWithSlash s = false := by
  unfold startsWithSlash
  cases hl : s.toList with
  | nil => rfl
  | cons ch rest =>
    have : ch ≠ '/' := hs ch (by rw [hl]; simp)
    simp [this]

/-- Core key-safety fact for C6: joining `sessionId/attachmentId/cleanName`
with `path.posix.join` and normalizing to a posix key yields a key none of
whose slash-separated segments is `".."`, and all of whose segments after
the first consist of sanitizer-allowed characters. -/
theorem posixJoin_key_safe (s aid c : String)
    (hs0 : s ≠ "") (hs1 : s ≠ ".") (hs2 : s ≠ "..")
    (hs3 : ∀ ch ∈ s.toList, ch ≠ '/')
    (ha0 : aid ≠ "") (ha1 : aid ≠ ".") (ha2 : aid ≠ "..")
    (ha3 : ∀ ch ∈ aid.toList, isAllowedChar ch = true)
    (hc0 : c ≠ "") (hc3 : ∀ ch ∈ c.toList, isAllowedChar ch = true) :
    (∀ seg ∈ splitSlash (ensurePosixKey (posixJoin [s, aid, c])), seg ≠ "..") ∧
    (∀ seg ∈ (splitSlash (ensurePosixKey (posixJoin [s, aid, c]))).drop 1,
      ∀ ch ∈ seg.toList, isAllowedChar ch = true) := by
  have haid_sep : ∀ ch ∈ aid.toList, ch ≠ '/' := allowed_no_sep aid ha3
  have hc_sep : ∀ ch ∈ c.toList, ch ≠ '/' := allowed_no_sep c hc3
  have hfilter : [s, aid, c].filter (fun p => p ≠ "") = [s, aid, c] := by
    rw [List.filter_eq_self]
    intro a hmem
    fin_cases hmem <;> simp [hs0, ha0, hc0]
  have hsegs : (List.map splitSlash [s, aid, c]).flatten = [s, aid, c] := by
    rw [List.map_cons, List.map_cons, List.map_cons, List.map_nil,
      splitSlash_no_sep s hs3, splitSlash_no_sep aid haid_sep,
      splitSlash_no_sep c hc_sep]
    rfl
  have habs : startsWithSlash s = false := startsWithSlash_false s hs3
  have n1 : normLoop false [s, aid, c] [] = normLoop false [aid, c] [s] := by
    simp only [normLoop]
    rw [if_neg (by simp [hs0, hs1]), if_neg hs2]
  have n2 : normLoop false [aid, c] [s] = normLoop false [c] [aid, s] := by
    simp only [normLoop]
    rw [if_neg (by simp [ha0, ha1]), if_neg ha2]
  have key_eq : ∀ L : List String, L ≠ [] →
      (∀ x ∈ L, ∀ ch ∈ x.toList, ch ≠ '/') →
      normLoop false [s, aid, c] [] = L →
      joinSlash L ≠ "" →
      splitSlash (ensurePosixKey (posixJoin [s, aid, c])) = L := by
    intro L hLne hLfree hnorm hLne'
    have hpj : posixJoin [s, aid, c] = joinSlash L := by
      unfold posixJoin
      simp only [hfilter, habs]
      rw [hsegs, hnorm, if_neg (by simp), if_neg hLne']
    rw [hpj, ensurePosixKey_id]
    exact splitSlash_joinSlash L hLne hLfree
  have two_ne : ∀ x : String, ∀ L : List String, L ≠ [] → x ≠ "" →
      joinSlash (x :: L) ≠ "" := by
    intro x L hL hx hbad
    rw [joinSlash_cons_cons x L hL, string_eq_empty_iff,
      string_toList_append, string_toList_append,
      show ("/" : String).toList = ['/'] from rfl] at hbad
    simp at hbad
  by_cases hcdot : c = "."
  · have n3 : normLoop false [s, aid, c] [] = [s, aid] := by
      rw [n1, n2]
      simp only [normLoop]
      rw [if_pos (Or.inr hcdot)]
      simp [normLoop]
    have hkey := key_eq [s, aid] (by simp)
      (by intro x hx; fin_cases hx; exact hs3; exact haid_sep) n3
      (two_ne s [aid] (by simp) hs0)
    rw [hkey]
    refine ⟨?_, ?_⟩
    · intro seg hseg; fin_cases hseg; exact hs2; exact ha2
    · intro seg hseg; fin_cases hseg; exact ha3
  · by_cases hcdd : c = ".."
    · have n3 : normLoop false [s, aid, c] [] = [s] := by
        rw [n1, n2]
        simp only [normLoop]
        rw [if_neg (by simp [hc0, hcdot]), if_pos hcdd, if_neg ha2]
        simp [normLoop]
      have hkey := key_eq [s] (by simp)
        (by intro x hx; fin_cases hx; exact hs3) n3
        (by simpa [joinSlash] using hs0)
      rw [hkey]
      refine ⟨?_, ?_⟩
      · intro seg hseg; fin_cases hseg; exact hs2
      · intro seg hseg; simp at hseg
    · have n3 : normLoop false [s, aid, c] [] = [s, aid, c] := by
        rw [n1, n2]
        simp only [normLoop]
        rw [if_neg (by simp [hc0, hcdot]), if_neg hcdd]
        simp [normLoop]
      have hkey := key_eq [s, aid, c] (by simp)
        (by intro x hx; fin_cases hx; exact hs3; exact haid_sep; exact hc_sep) n3
        (two_ne s [aid, c] (by simp) hs0)
      rw [hkey]
      refine ⟨?_, ?_⟩
      · intro seg hseg; fin_cases hseg; exact hs2; exact ha2; exact hcdd
      · intro seg hseg; fin_cases hseg; exact ha3; exact hc3

/-! ## Claim C6 -/

/-- C6: for every filename — including path-traversal sequences and
illegal characters — the storage key `sessionId/attachmentId/cleanName`
built by `createUpload` from the sanitized filename has no `".."` segment,
and every segment after the leading session id consists only of characters
in `[A-Za-z0-9._-]`.  The session id is assumed to be a well-formed
identifier (non-empty, no slash, not a dot segment) and the attachment id
an allowed-charset identifier, as the 24-hex-character generated ids
always are. -/
theorem c6_storage_key_safe (st : SysState) (aid tok : String)
    (p : CreateUploadParams)
    (hs0 : p.sessionId ≠ "") (hs1 : p.sessionId ≠ ".") (hs2 : p.sessionId ≠ "..")
    (hs3 : ∀ ch ∈ p.sessionId.toList, ch ≠ '/')
    (ha0 : aid ≠ "") (ha1 : aid ≠ ".") (ha2 : aid ≠ "..")
    (ha3 : ∀ ch ∈ aid.toList, isAllowedChar ch = true) :
    (∀ seg ∈ splitSlash (createUpload st aid tok p).attachment.storageKey,
      seg ≠ "..") ∧
    (∀ seg ∈ (splitSlash (createUpload st aid tok p).attachment.storageKey).drop 1,
      ∀ ch ∈ seg.toList, isAllowedChar ch = true) := by
  have hkey : (createUpload st aid tok p).attachment.storageKey =
      ensurePosixKey (posixJoin [p.sessionId, aid,
        match p.filename with
        | some f => if f = "" then "attachment" else sanitizeFilename f
        | none => "attachment"]) := rfl
  rw [hkey]
  apply posixJoin_key_safe p.sessionId aid _ hs0 hs1 hs2 hs3 ha0 ha1 ha2 ha3
  · cases hf : p.filename with
    | none => decide
    | some f =>
      by_cases he : f = ""
      · simp [he]
      · simp only [if_neg he]
        exact sanitizeFilename_ne_empty f
  · cases hf : p.filename with
    | none => decide
    | some f =>
      by_cases he : f = ""
      · simp [he]; decide
      · simp only [if_neg he]
        exact sanitizeFilename_allowed f

/-- The fixed attachment id used for Scenario A, shaped like the
24-hex-character ids `createUpload` generates. -/
def fixAidA : String := "a2b4c6d8e0f2a4b6c8d0e2f4"

/-- Scenario A issue parameters: session `"s1"`, filename
`"  my report.PDF "`, declared size 1000. -/
def fixParamsA : CreateUploadParams :=
  { sessionId := "s1", filename := some "  my report.PDF "
    mimeType := none, size := some (.finite 1000) }

/-- Witness for C6, Scenario A: the sanitized filename is
`"my-report.PDF"` and the storage key is `s1/<id>/my-report.PDF`; the
safety conclusions hold at these inputs. -/
theorem c6_storage_key_safe_witness :
    ((∀ seg ∈ splitSlash
        (createUpload fixState fixAidA "tokA" fixParamsA).attachment.storageKey,
      seg ≠ "..") ∧
     (∀ seg ∈ (splitSlash
        (createUpload fixState fixAidA "tokA" fixParamsA).attachment.storageKey).drop 1,
      ∀ ch ∈ seg.toList, isAllowedChar ch = true)) ∧
    (createUpload fixState fixAidA "tokA" fixParamsA).attachment.filename =
      "my-report.PDF" ∧
    (createUpload fixState fixAidA "tokA" fixParamsA).attachment.storageKey =
      "s1/a2b4c6d8e0f2a4b6c8d0e2f4/my-report.PDF" :=
  ⟨c6_storage_key_safe fixState fixAidA "tokA" fixParamsA
    (by decide) (by decide) (by decide) (by decide)
    (by decide) (by decide) (by decide) (by decide),
   by decide, by decide⟩

/-! ## Claim C8 -/

/-- C8: `openAttachmentPath` is a deterministic read — two calls with the
same attachment id, over a metadata store that maps the id the same way
and a filesystem that answers the same for the resolved storage path,
return the same attachment, the same resolved path and the same existence
outcome; the call itself never mutates either store. -/
theorem c8_open_path_deterministic (attachments attachments' : MetaStore)
    (fsExists fsExists' : String → Bool) (baseDir attachmentId : String)
    (hmeta : attachments attachmentId = attachments' attachmentId)
    (hfile : ∀ a, attachments attachmentId = some a →
      fsExists (buildStoragePath baseDir a.storageKey) =
        fsExists' (buildStoragePath baseDir a.storageKey)) :
    openAttachmentPath attachments fsExists baseDir attachmentId =
      openAttachmentPath attachments' fsExists' baseDir attachmentId := by
  unfold openAttachmentPath
  rw [← hmeta]
  cases h : attachments attachmentId with
  | none => rfl
  | some a => simp [hfile a h]

/-- A filesystem on which exactly the fixture's resolved path exists. -/
def fixFsExact : String → Bool := fun p => p == "att/s1/a1/f.txt"

/-- Witness for C8: a call against an everything-exists filesystem and a
call against a filesystem agreeing only on the resolved path produce
identical results at the fixture attachment. -/
theorem c8_open_path_deterministic_witness :
    openAttachmentPath fixStore (fun _ => true) "att" "a1" =
      openAttachmentPath fixStore fixFsExact "att" "a1" :=
  c8_open_path_deterministic fixStore fixStore (fun _ => true) fixFsExact
    "att" "a1" rfl
    (fun a ha => by
      have hsome : some fixAtt = some a := ha
      cases hsome
      decide)

end Attachments
